import Mathlib

set_option maxRecDepth 4000

/-
  Verification development for the GemNet desktop application
  (gemini_controller.py, main.py, chat_pane.py, editor_pane.py).

  The Python code is shallowly embedded below.  Strings are modelled with
  Lean strings (lists of characters); the ASCII fragment of Python
  predicates such as str.isalnum and str.strip is used.  GUI rendering
  (HTML conversion, cursors, highlighting, message boxes) is display-only
  and is not part of the model; every state the code branches on or that
  the specification talks about (buffers, context dictionary, logs,
  the saved-file directory) is modelled explicitly.
-/

namespace GemNet

/-! ## String utilities (Python semantics, ASCII fragment) -/

/-- Python whitespace characters (ASCII fragment), as stripped by str.strip(). -/
def isPySpace (c : Char) : Bool :=
  c = ' ' || c = '\t' || c = '\n' || c = '\r' || c = '\x0b' || c = '\x0c'

/-- Python str.strip() on a list of characters. -/
def pyStrip (l : List Char) : List Char :=
  ((l.dropWhile isPySpace).reverse.dropWhile isPySpace).reverse

/-- Test whether pat is an initial segment of l (str.startswith on char lists). -/
def startsList : List Char → List Char → Bool
  | [], _ => true
  | _ :: _, [] => false
  | p :: ps, a :: l => p = a && startsList ps l

/-- Python s.startswith(pat) for strings. -/
def strStarts (s pat : String) : Bool := startsList pat.data s.data

/-- Test whether needle occurs as a contiguous run inside hay ("x in s" in Python). -/
def hasSub : List Char → List Char → Bool
  | [], needle => needle.isEmpty
  | a :: t, needle => startsList needle (a :: t) || hasSub t needle

/-- The proposition that needle occurs as a contiguous substring of hay. -/
def containsSub (hay needle : String) : Prop :=
  ∃ a b, hay.data = a ++ (needle.data ++ b)

/-- Python s.replace(pat, repl): replace all occurrences left to right,
    non-overlapping.  The source only calls this with non-empty literal
    patterns; for an empty pattern this returns the input unchanged. -/
def replaceAll (pat repl : List Char) : List Char → List Char
  | [] => []
  | a :: l =>
    if !pat.isEmpty && startsList pat (a :: l) then
      repl ++ replaceAll pat repl (l.drop (pat.length - 1))
    else
      a :: replaceAll pat repl l
termination_by l => l.length
decreasing_by
  · simp only [List.length_cons]
    have := List.length_drop (pat.length - 1) l
    omega
  · simp [List.length_cons]

/-- Decimal digit characters of n, most significant first, with explicit fuel
    so that the definition reduces; models Python str(n) for a natural n. -/
def decDigitsAux : Nat → Nat → List Char
  | 0, _ => []
  | fuel + 1, n =>
    if n < 10 then [Nat.digitChar n]
    else decDigitsAux fuel (n / 10) ++ [Nat.digitChar (n % 10)]

/-- Python str(n) for a natural number n. -/
def natToStr (n : Nat) : String := ⟨decDigitsAux (n + 1) n⟩

/-- Python content[:n] for strings. -/
def pyTake (n : Nat) (s : String) : String := ⟨s.data.take n⟩

/-- Python os.path.basename for the paths appearing in this program
    (the part after the last forward slash). -/
def basename (s : String) : String :=
  ⟨(s.data.reverse.takeWhile (fun c => c != '/')).reverse⟩

/-- Python os.path.splitext restricted to a bare filename: split off the
    extension at the last dot, unless every character before that dot is
    itself a dot (so ".bashrc" has no extension). -/
def splitext (s : String) : String × String :=
  let rev := s.data.reverse
  let after := rev.takeWhile (fun c => c != '.')
  if after.length = rev.length then (s, "")
  else
    let before := (rev.drop (after.length + 1)).reverse
    if before.all (fun c => c = '.') then (s, "")
    else (⟨before⟩, ⟨'.' :: after.reverse⟩)

/-- The characters kept by the /create-time sanitizer in
    gemini_controller.process_user_chat: c.isalnum() or c in
    ('.', '_', '-', ' ').  isalnum is modelled by its ASCII fragment. -/
def allowedCreate (c : Char) : Bool :=
  c.isAlphanum || c = '.' || c = '_' || c = '-' || c = ' '

/-- The characters kept by the save-time re-sanitizer in
    main._save_generated_file: c.isalnum() or c in ('.', '_', '-'). -/
def allowedSave (c : Char) : Bool :=
  c.isAlphanum || c = '.' || c = '_' || c = '-'

/-- The /create command filename sanitizer (gemini_controller.py,
    process_user_chat, command "/create"). -/
def sanitizeCreate (raw : String) : String :=
  let safe := pyStrip (raw.data.filter allowedCreate)
  if safe = [] then "gemini_generated_file.txt"
  else if safe = ['.'] ∨ safe = ['_'] ∨ safe = ['-']
      ∨ safe.head? = some '.' ∨ safe.getLast? = some '.' then
    ⟨"gemini_generated_".data ++ safe ++ ".txt".data⟩
  else ⟨safe⟩

/-- The save-time filename re-sanitizer (main.py, _save_generated_file). -/
def sanitizeSave (raw : String) : String :=
  let safe := pyStrip (raw.data.filter allowedSave)
  if safe = [] ∨ safe.head? = some '.' then "gemini_generated_file.txt"
  else ⟨safe⟩

/-! ## StreamWorker (GeminiWorker.run in gemini_controller.py) -/

/-- The four Qt signals a GeminiWorker can emit, in the order they appear
    in an event trace. -/
inductive WEvent where
  | started (sender kind : String)
  | chunk (text : String)
  | finished (sender kind : String)
  | error (msg kind : String)
deriving DecidableEq, Repr

/-- One item yielded by the streamed API response.  block holds the
    (block_reason.name, blocked category name) pair when prompt_feedback
    reports a content-safety block (the category resolution from the
    safety_ratings list is folded into the input); text holds the chunk
    text when the item has a text attribute. -/
structure StreamItem where
  block : Option (String × String)
  text : Option String
deriving DecidableEq, Repr

/-- Constructor arguments of GeminiWorker. -/
structure WorkerCfg where
  modelName : String
  prompt : String
  contextType : String
  sender : String
  filename : Option String
deriving DecidableEq, Repr

/-- The exceptions distinguished by GeminiWorker.run, with the stringified
    exception text; generic carries type(e).__name__ and str(e). -/
inductive ApiErr where
  | permissionDenied (s : String)
  | resourceExhausted (s : String)
  | invalidArgument (s : String)
  | notFound (s : String)
  | failedPrecondition (s : String)
  | internalServerError (s : String)
  | serviceUnavailable (s : String)
  | generic (typeName s : String)
deriving DecidableEq, Repr

/-- The human-readable message produced by the except-chain of
    GeminiWorker.run for each exception. -/
def excMsg : ApiErr → String
  | .permissionDenied s => "API Permission Denied: " ++ s
  | .resourceExhausted s => "API Quota Exceeded: " ++ s
  | .invalidArgument s =>
    if hasSub s.data "User location is not supported".data then
      "API Error: Location not supported."
    else if hasSub s.data "API key not valid".data then
      "API Error: API key not valid. " ++ s
    else if hasSub s.data "found no valid candidate".data then
      "API Error: No valid candidate found (Safety/Prompt issue?). " ++ s
    else "API Invalid Argument: " ++ s
  | .notFound s => "API Not Found: " ++ s
  | .failedPrecondition s => "API Precondition Failed (Billing?): " ++ s
  | .internalServerError s => "API Internal Server Error: " ++ s
  | .serviceUnavailable s => "API Service Unavailable: " ++ s
  | .generic n s => "Worker Thread Error: " ++ n ++ " - " ++ s

/-- The error message emitted on a safety block, naming reason and category. -/
def blockMsg (reason category : String) : String :=
  "Error: Blocked by safety filters. Reason: " ++ reason
    ++ ". Category: " ++ category ++ "."

/-- The environment one run of GeminiWorker.run executes in: whether the
    GOOGLE_API_KEY variable is set, which exceptions the API raises and
    where, the items the response iterator yields, and the first loop
    iteration at which the asynchronously set _is_cancelled flag reads
    true (none when it is never observed set; the flag is monotone, set
    once by cancel()). -/
structure RunEnv where
  apiKeyPresent : Bool
  setupErr : Option ApiErr
  genErr : Option ApiErr
  items : List StreamItem
  iterErr : Option ApiErr
  cancelAt : Option Nat
deriving DecidableEq, Repr

/-- Whether the worker reads _is_cancelled as true at loop iteration i. -/
def cancelSeen (env : RunEnv) (i : Nat) : Bool :=
  match env.cancelAt with
  | some k => decide (k ≤ i)
  | none => false

/-- The kind string carried on a successful finished event:
    "create_success:<filename>" when the context is file_create and a
    non-empty filename was supplied, the plain context type otherwise. -/
def finalKind (cfg : WorkerCfg) : String :=
  match cfg.filename with
  | some f =>
    if cfg.contextType = "file_create" ∧ f ≠ "" then "create_success:" ++ f
    else cfg.contextType
  | none => cfg.contextType

/-- The body of the for-loop over the streamed response in
    GeminiWorker.run, started at iteration index i: returns the events
    emitted inside the loop together with the stream_successful flag. -/
def workerLoop (env : RunEnv) (kind : String) : Nat → List StreamItem → List WEvent × Bool
  | _, [] => ([], true)
  | i, item :: rest =>
    if cancelSeen env i then ([.error "Stream cancelled" kind], false)
    else
      match item.block with
      | some rc => ([.error (blockMsg rc.1 rc.2) kind], false)
      | none =>
        let r := workerLoop env kind (i + 1) rest
        match item.text with
        | some t => (.chunk t :: r.1, r.2)
        | none => r

/-- One run of GeminiWorker.run: the full event trace it emits.  The
    missing-key ValueError is raised before started is emitted; setup
    exceptions (genai.configure / GenerativeModel) likewise; the
    generate_content call and the response iterator can raise after
    started; all exceptions are converted to a single error event by the
    except-chain. -/
def runWorker (cfg : WorkerCfg) (env : RunEnv) : List WEvent :=
  if env.apiKeyPresent = false then
    [.error (excMsg (.generic "ValueError" "GOOGLE_API_KEY not found in worker thread."))
        cfg.contextType]
  else
    match env.setupErr with
    | some e => [.error (excMsg e) cfg.contextType]
    | none =>
      .started cfg.sender cfg.contextType ::
      (match env.genErr with
       | some e => [.error (excMsg e) cfg.contextType]
       | none =>
         let r := workerLoop env cfg.contextType 0 env.items
         if r.2 then
           match env.iterErr with
           | some e => r.1 ++ [.error (excMsg e) cfg.contextType]
           | none => r.1 ++ [.finished cfg.sender (finalKind cfg)]
         else r.1)

/-- Whether an event is terminal (finished or error). -/
def isTerminal : WEvent → Bool
  | .finished _ _ => true
  | .error _ _ => true
  | _ => false

/-- Whether an event is a chunk event. -/
def isChunk : WEvent → Bool
  | .chunk _ => true
  | _ => false

/-- Whether an event is a started event. -/
def isStarted : WEvent → Bool
  | .started _ _ => true
  | _ => false

/-- Whether an event is a finished event. -/
def isFinished : WEvent → Bool
  | .finished _ _ => true
  | _ => false

/-- The chunk events produced by a list of stream items when neither a
    cancellation nor a safety block interrupts them. -/
def chunksOf (l : List StreamItem) : List WEvent :=
  l.filterMap (fun it => it.text.map WEvent.chunk)

/-! ## ChatPane (chat_pane.py) -/

/-- One complete message added to the chat history via add_message. -/
structure ChatMsg where
  sender : String
  message : String
  isStatus : Bool
  isError : Bool
  isUser : Bool
deriving DecidableEq, Repr

/-- Observable state of the chat pane: the streaming flags, the raw
    markdown accumulated for the currently streaming region, the complete
    messages added so far, and the markdown of each finalized streamed
    region.  (HTML rendering and cursor mechanics are display-only.) -/
structure ChatPane where
  isStreaming : Bool
  curSender : String
  curMarkdown : String
  hasStart : Bool
  log : List ChatMsg
  finalized : List String
deriving DecidableEq, Repr

/-- ChatPane._reset_stream_state. -/
def ChatPane.resetStream (p : ChatPane) : ChatPane :=
  { p with isStreaming := false, curSender := "", curMarkdown := "", hasStart := false }

/-- ChatPane._finalize_stream_visuals: record the finished region (when a
    start position and content exist) and reset the streaming state. -/
def ChatPane.finalizeVisuals (p : ChatPane) : ChatPane :=
  if p.hasStart = false ∨ p.curMarkdown = "" then p.resetStream
  else { p.resetStream with finalized := p.finalized ++ [p.curMarkdown] }

/-- ChatPane.add_message. -/
def ChatPane.addMessage (sender message : String) (isStatus isError isUser : Bool)
    (p : ChatPane) : ChatPane :=
  let p := if p.isStreaming ∧ sender ≠ p.curSender then p.finalizeVisuals else p
  { p with log := p.log ++ [⟨sender, message, isStatus, isError, isUser⟩] }

/-- ChatPane.handle_stream_started. -/
def ChatPane.handleStreamStarted (sender kind : String) (p : ChatPane) : ChatPane :=
  if kind ≠ "chat" ∧ kind ≠ "file_create" ∧ strStarts kind "create_success" = false then p
  else
    let p := if p.isStreaming then p.finalizeVisuals else p
    { p with isStreaming := true, curSender := sender, curMarkdown := "", hasStart := true }

/-- The directive rewriting applied to each chunk before display and
    accumulation (replace triple-backtick plain and text fences). -/
def chunkTransform (s : String) : String :=
  ⟨replaceAll "```text\n".data "```\n".data
    (replaceAll "```plain\n".data "```\n".data s.data)⟩

/-- ChatPane.handle_stream_chunk. -/
def ChatPane.handleStreamChunk (chunk : String) (p : ChatPane) : ChatPane :=
  if p.isStreaming = false then p
  else { p with curMarkdown := p.curMarkdown ++ chunkTransform chunk }

/-- ChatPane.handle_stream_finished. -/
def ChatPane.handleStreamFinished (sender : String) (_kind : String) (p : ChatPane) : ChatPane :=
  if p.isStreaming = false ∨ sender ≠ p.curSender then p
  else p.finalizeVisuals

/-- ChatPane.handle_stream_error. -/
def ChatPane.handleStreamError (msg kind : String) (p : ChatPane) : ChatPane :=
  if kind ≠ "chat" ∧ kind ≠ "file_create" then p
  else (p.addMessage "Error" msg false true false).resetStream

/-! ## EditorPane streaming slots (editor_pane.py) -/

/-- Observable state of the editor pane: whether a tab is open, its text,
    its modified flag and file_path property, the _is_editor_streaming
    flag, and the emitted status messages. -/
structure EditorPane where
  hasTab : Bool
  buffer : String
  isModified : Bool
  isStreaming : Bool
  statusLog : List String
  path : Option String
deriving DecidableEq, Repr

/-- EditorPane.handle_stream_started: for editor streams with an open tab,
    enter streaming state and clear the buffer for replacement. -/
def EditorPane.handleStreamStarted (_sender kind : String) (e : EditorPane) : EditorPane :=
  if kind ≠ "editor" then e
  else if e.hasTab then
    { e with isStreaming := true, buffer := "",
             statusLog := e.statusLog ++ ["Receiving suggested edit from Gemini..."] }
  else
    { e with statusLog := e.statusLog ++ ["Error: Cannot apply edit - no active editor tab."] }

/-- EditorPane.handle_stream_chunk: append the chunk at the end of the
    buffer while streaming. -/
def EditorPane.handleStreamChunk (chunk : String) (e : EditorPane) : EditorPane :=
  if e.isStreaming = false then e
  else if e.hasTab then { e with buffer := e.buffer ++ chunk }
  else e

/-- EditorPane.handle_stream_finished: leave streaming state and mark the
    buffer modified. -/
def EditorPane.handleStreamFinished (_sender kind : String) (e : EditorPane) : EditorPane :=
  if kind ≠ "editor" ∨ e.isStreaming = false then e
  else
    let e1 := { e with isStreaming := false }
    if e1.hasTab then
      { e1 with isModified := true,
                statusLog := e1.statusLog ++ ["Editor content updated by Gemini."] }
    else e1

/-- EditorPane.handle_stream_error: report the error, leave streaming
    state, keep the partial buffer, and mark it modified when non-empty.
    (The modified-flag check reads fields the status append left
    unchanged, so it is expressed on the incoming state.) -/
def EditorPane.handleStreamError (msg kind : String) (e : EditorPane) : EditorPane :=
  if kind ≠ "editor" then e
  else if e.hasTab ∧ e.buffer ≠ "" ∧ e.isModified = false then
    { e with statusLog := e.statusLog ++ ["Error during edit: " ++ msg],
             isStreaming := false, isModified := true }
  else
    { e with statusLog := e.statusLog ++ ["Error during edit: " ++ msg],
             isStreaming := false }

/-! ## Controller context and application state (gemini_controller.py, main.py) -/

/-- The controller's current_context dictionary: the keys the source ever
    stores are action, files, filename, path. -/
structure Ctx where
  action : Option String
  files : Option (List String)
  filename : Option String
  path : Option String
deriving DecidableEq, Repr

/-- The empty context dictionary, set_context({}). -/
def Ctx.empty : Ctx := ⟨none, none, none, none⟩

/-- One _stream_gemini_api call: the worker the controller constructed. -/
structure SessionRec where
  model : String
  prompt : String
  kind : String
  sender : String
  filename : Option String
deriving DecidableEq, Repr

/-- Combined state of GeminiController and MainWindow: the context, the
    configuration flags, the pointer to the active worker (its session
    index and context_type), the log of all started sessions, the
    _streaming_file_content buffer, both panes, the files of the file
    browser's current directory (assumed writable; also the save target),
    and that directory's basename for error messages. -/
structure App where
  ctx : Ctx
  configured : Bool
  modelName : String
  activeWorker : Option (Nat × String)
  sessions : List SessionRec
  fileBuf : String
  chat : ChatPane
  editor : EditorPane
  disk : List (String × String)
  curDirName : String
deriving DecidableEq, Repr

/-- Look a file up by name in the current directory (os.path.isfile plus
    reading its content; encoding fallback and size limits of _read_files
    are abstracted away, no claim depends on them). -/
def lookupFile (disk : List (String × String)) (path : String) : Option String :=
  (disk.find? (fun p => p.1 = path)).map Prod.snd

/-- _read_files: the successfully read (path, content) pairs, in order. -/
def readFiles (disk : List (String × String)) (paths : List String) :
    List (String × String) :=
  paths.filterMap (fun p => (lookupFile disk p).map (fun c => (p, c)))

/-- Python content[:limit] plus the truncation marker appended when the
    content is longer than the limit. -/
def truncMarked (limit : Nat) (s : String) : String :=
  pyTake limit s ++ (if limit < s.data.length then "\n[... content truncated ...]\n" else "")

/-- GeminiController._build_edit_prompt. -/
def buildEditPrompt (targetFilename targetContent instructions : String)
    (contextFiles : List (String × String)) : String :=
  let otherFiles := contextFiles.filter (fun pc => basename pc.1 ≠ targetFilename)
  "You are a helpful coding assistant integrated into a development tool called GemNet.\n"
  ++ "The user wants to modify the code/text (currently in '" ++ targetFilename
  ++ "' if known, otherwise in the editor tab) based on the following instructions.\n"
  ++ (if contextFiles ≠ [] ∧ otherFiles ≠ [] then
      "Additional context from other selected files is provided below the main content.\n"
      else "")
  ++ "Instructions: '" ++ instructions ++ "'\n\n"
  ++ "--- Content to Edit ('" ++ targetFilename ++ "' or Current Tab) ---\n"
  ++ truncMarked 20000 targetContent
  ++ "\n---\n"
  ++ (if contextFiles ≠ [] ∧ otherFiles ≠ [] then
      String.join (otherFiles.map (fun pc =>
        "\n--- Context File: " ++ basename pc.1 ++ " ---\n"
        ++ truncMarked 5000 pc.2 ++ "\n---\n"))
      else "")
  ++ "\nBased ONLY on the provided content and instructions, generate the COMPLETE, modified content.\n"
  ++ "IMPORTANT: Output *only* the raw, modified code/text. Do not include explanations, introductions, apologies, ```markdown formatting```, or any text other than the content itself."

/-- The prompt built for a /create description message
    (gemini_controller.process_user_chat, action == 'create'). -/
def createContentPrompt (filename description : String) : String :=
  "You are a helpful file generation assistant called GemNet.\n"
  ++ "The user wants to create a file named '" ++ filename
  ++ "' with the following purpose/content described:\n"
  ++ "Description: '" ++ description ++ "'\n\n"
  ++ "Generate ONLY the raw file content based on the description.\n"
  ++ "IMPORTANT: Do NOT include the filename, explanations, introductions, apologies, ```markdown formatting```, or any text other than the required file content itself."

/-- The prompt for a plain chat message. -/
def chatPrompt (message : String) : String :=
  "You are a helpful assistant called GemNet. Respond concisely and helpfully.\n"
  ++ "\nUser: " ++ message ++ "\n\nAssistant:"

/-- The prompt built by request_explanation from the read files. -/
def explainPrompt (contents : List (String × String)) : String :=
  "You are a helpful assistant integrated into a development tool called GemNet.\n"
  ++ "Please explain the purpose and high-level functionality of the following file(s):\n\n"
  ++ String.join (contents.map (fun pc =>
      "--- File: " ++ basename pc.1 ++ " ---\n" ++ truncMarked 10000 pc.2 ++ "---\n"))
  ++ "Provide the explanation below:"

/-! ## Saving a generated file (main._save_generated_file) -/

/-- The candidate filename with numeric suffix n tried by the collision
    loop: f"base_n" ++ ext. -/
def candName (base ext : String) (n : Nat) : String :=
  base ++ "_" ++ natToStr n ++ ext

/-- The collision loop of _save_generated_file, fuelled: try the counters
    n, n+1, ... until the candidate does not exist.  The source loops
    unboundedly; fuel names.length + 1 always suffices (see
    freshFrom_least below), so the embedding computes the loop's result. -/
def freshFrom (names : List String) (base ext : String) : Nat → Nat → String
  | n, 0 => candName base ext n
  | n, fuel + 1 =>
    if candName base ext n ∈ names then freshFrom names base ext (n + 1) fuel
    else candName base ext n

/-- The name under which a sanitized filename is actually saved, given the
    names already present in the target directory. -/
def saveName (names : List String) (safe : String) : String :=
  if safe ∈ names then
    freshFrom names (splitext safe).1 (splitext safe).2 1 (names.length + 1)
  else safe

/-- The pure filesystem core of _save_generated_file: sanitize, resolve
    collisions, write.  Returns the new directory contents and the name
    written.  (The write itself is assumed to succeed; the IOError branch
    is display-only here.) -/
def saveFileFS (filename content : String) (disk : List (String × String)) :
    List (String × String) × String :=
  let safe := sanitizeSave filename
  let name := saveName (disk.map Prod.fst) safe
  (disk ++ [(name, content)], name)

/-- main._save_generated_file including its chat notifications. -/
def saveGeneratedFile (filename content : String) (a : App) : App :=
  let safe := sanitizeSave filename
  let r := saveFileFS filename content a.disk
  let a1 :=
    if r.2 ≠ safe then
      { a with chat := (a.chat.addMessage "Warning"
          ("File '" ++ safe ++ "' already exists. Saved as '" ++ r.2 ++ "'.") true false false) }
    else a
  { a1 with disk := r.1,
            chat := a1.chat.addMessage "GemNet" ("Created file: " ++ r.2) true false false }

/-! ## MainWindow stream routing (main.py) -/

/-- MainWindow.handle_stream_started: route by the kind carried on the
    event; reset the file buffer when a file_create stream starts. -/
def handleStreamStartedA (sender kind : String) (a : App) : App :=
  if kind = "editor" then { a with editor := a.editor.handleStreamStarted sender kind }
  else if kind = "chat" ∨ kind = "file_create" then
    let a1 := if kind = "file_create" then { a with fileBuf := "" } else a
    { a1 with chat := a1.chat.handleStreamStarted sender kind }
  else a

/-- MainWindow.handle_stream_chunk: route by the context_type of the
    CURRENTLY active worker (the chunk event itself carries no session
    identity). -/
def handleStreamChunkA (chunk : String) (a : App) : App :=
  let cur : Option String := a.activeWorker.map (fun w => w.2)
  if cur = some "editor" then { a with editor := a.editor.handleStreamChunk chunk }
  else if cur = some "file_create" then
    { a with fileBuf := a.fileBuf ++ chunk, chat := a.chat.handleStreamChunk chunk }
  else { a with chat := a.chat.handleStreamChunk chunk }

/-- The part of a string after its first colon (Python s.split(":", 1)[1]),
    none when there is no colon (the IndexError branch). -/
def afterColon (l : List Char) : Option (List Char) :=
  match l.dropWhile (fun c => c != ':') with
  | [] => none
  | _ :: rest => some rest

/-- MainWindow.handle_stream_finished. -/
def handleStreamFinishedA (sender kind : String) (a : App) : App :=
  if strStarts kind "create_success:" then
    match afterColon kind.data with
    | some fnChars =>
      let a1 := saveGeneratedFile ⟨fnChars⟩ a.fileBuf a
      let a2 := { a1 with fileBuf := "" }
      let a3 := { a2 with chat := a2.chat.handleStreamFinished sender "file_create" }
      if a3.ctx.action = some "creating_file" then { a3 with ctx := Ctx.empty } else a3
    | none =>
      { a with chat := (a.chat.addMessage "Error" "Internal error finishing file creation."
                 false true false),
               fileBuf := "", ctx := Ctx.empty }
  else if kind = "editor" then
    let a1 := { a with editor := a.editor.handleStreamFinished sender kind }
    if a1.ctx.action = some "edit" ∨ a1.ctx.action = some "edit_editor" then
      { a1 with ctx := Ctx.empty }
    else a1
  else if kind = "chat" then
    { a with chat := a.chat.handleStreamFinished sender kind, ctx := Ctx.empty }
  else if kind = "file_create" then
    { a with chat := a.chat.handleStreamFinished sender kind, fileBuf := "", ctx := Ctx.empty }
  else { a with ctx := Ctx.empty }

/-- The destination kind an error event is routed by: a create_success
    tagged kind is treated as file_create, anything else as itself. -/
def errorUiKind (kind : String) : String :=
  if strStarts kind "create_success:" then "file_create" else kind

/-- MainWindow.handle_stream_error: route the message by the kind carried
    on the event, clear the file buffer for file_create, and always clear
    the controller context. -/
def handleStreamErrorA (msg kind : String) (a : App) : App :=
  let uiKind := errorUiKind kind
  let a1 :=
    if uiKind = "editor" then { a with editor := a.editor.handleStreamError msg uiKind }
    else if uiKind = "chat" ∨ uiKind = "file_create" then
      { a with chat := a.chat.handleStreamError msg uiKind }
    else
      { a with chat := (a.chat.addMessage "Error" ("(" ++ uiKind ++ ") " ++ msg)
                 false true false) }
  let a2 := if uiKind = "file_create" then { a1 with fileBuf := "" } else a1
  { a2 with ctx := Ctx.empty }

/-- GeminiController._cleanup_thread, connected to every worker's finished
    and error signals: tears down whatever worker is currently pointed at. -/
def cleanupThread (a : App) : App := { a with activeWorker := none }

/-- Delivery of one worker event on the main thread.  The emitting
    session's index is a parameter of the delivery (the adversary/schedule
    chooses which session's event arrives), but the Qt signals carry no
    session identity, so the handlers cannot and do not use it. -/
def deliverEvent (_sid : Nat) (ev : WEvent) (a : App) : App :=
  match ev with
  | .started sender kind => handleStreamStartedA sender kind a
  | .chunk text => handleStreamChunkA text a
  | .finished sender kind => cleanupThread (handleStreamFinishedA sender kind a)
  | .error msg kind => cleanupThread (handleStreamErrorA msg kind a)

/-! ## GeminiController (gemini_controller.py) -/

/-- GeminiController._stream_gemini_api: check configuration, cancel the
    previously active worker (best effort: that worker keeps running until
    it observes its flag), construct the new worker, connect its signals
    and start it.  The stream_error emissions on the failure paths run the
    MainWindow error handler. -/
def streamGeminiApi (prompt kind sender : String) (filenameForCreate : Option String)
    (a : App) : App :=
  if a.configured = false then
    handleStreamErrorA "Error: Gemini API not configured." kind a
  else if a.modelName = "" then
    handleStreamErrorA "Error: No model selected." kind a
  else
    { a with activeWorker := some (a.sessions.length, kind),
             sessions := a.sessions ++ [⟨a.modelName, prompt, kind, sender, filenameForCreate⟩] }

/-- GeminiController.request_edit. -/
def requestEdit (filePaths : List String) (instructions : String) (a : App) : App :=
  let contents := readFiles a.disk filePaths
  if contents = [] ∨ filePaths = [] then
    handleStreamErrorA "Cannot edit: File(s) could not be read or path missing." "editor" a
  else
    match filePaths with
    | [] => a
    | targetPath :: _ =>
      match lookupFile a.disk targetPath with
      | none =>
        handleStreamErrorA
          ("Could not read '" ++ basename targetPath ++ "' for editing.") "editor" a
      | some targetContent =>
        streamGeminiApi
          (buildEditPrompt (basename targetPath) targetContent instructions contents)
          "editor" "Gemini" none a

/-- GeminiController.request_explanation. -/
def requestExplanation (filePaths : List String) (a : App) : App :=
  let contents := readFiles a.disk filePaths
  if contents = [] then
    handleStreamErrorA "No files were read successfully to explain." "chat" a
  else
    let a1 := streamGeminiApi (explainPrompt contents) "chat" "Gemini" none a
    { a1 with ctx := Ctx.empty }

/-- Lowercased first whitespace-delimited token of the stripped message
    (Python message.strip().split(maxsplit=1)[0].lower(), "" when empty). -/
def cmdOf (message : String) : String :=
  ⟨((pyStrip message.data).takeWhile (fun c => !isPySpace c)).map Char.toLower⟩

/-- Stripped remainder after the first token (parts[1].strip(), "" when
    absent). -/
def argsOf (message : String) : String :=
  ⟨pyStrip (((pyStrip message.data).dropWhile (fun c => !isPySpace c)).dropWhile isPySpace)⟩

/-- The command-parsing tail of process_user_chat (reached when no action
    context is pending). -/
def processCommand (message : String) (a : App) : App :=
  let command := cmdOf message
  let argsStr := argsOf message
  if command = "/create" then
    if argsStr ≠ "" then
      let safe := sanitizeCreate argsStr
      let a1 := { a with ctx := ⟨some "create", none, some safe, none⟩ }
      { a1 with chat := (a1.chat.addMessage "GemNet"
          ("Creating '" ++ safe ++ "'. Provide description/content prompt in next message.")
          true false false) }
    else
      handleStreamErrorA "Usage: /create <filename>\n(Provide description in the next message)"
        "chat" a
  else if command = "/explain" then
    if argsStr ≠ "" then
      match lookupFile a.disk argsStr with
      | some _ =>
        let a1 := { a with ctx := Ctx.empty }
        requestExplanation [argsStr] a1
      | none =>
        let a1 := handleStreamErrorA
          ("Error: File '" ++ argsStr ++ "' not found in '" ++ a.curDirName ++ "'.") "chat" a
        { a1 with ctx := Ctx.empty }
    else
      let a1 := handleStreamErrorA "Usage: /explain <filename>" "chat" a
      { a1 with ctx := Ctx.empty }
  else if command = "/edit" then
    if argsStr ≠ "" then
      match lookupFile a.disk argsStr with
      | some content =>
        let openedEditor :=
          { a.editor with hasTab := true, buffer := content, isModified := false,
                          path := some argsStr }
        let a1 := { a with editor := openedEditor }
        let a2 := { a1 with ctx := ⟨some "edit", some [argsStr], none, none⟩ }
        { a2 with chat := (a2.chat.addMessage "GemNet"
            ("Editing '" ++ argsStr ++ "'. Provide instructions in next message.")
            true false false) }
      | none =>
        let a1 := handleStreamErrorA
          ("Error: File '" ++ argsStr ++ "' not found in '" ++ a.curDirName ++ "'.") "chat" a
        { a1 with ctx := Ctx.empty }
    else
      let a1 := handleStreamErrorA "Usage: /edit <filename>" "chat" a
      { a1 with ctx := Ctx.empty }
  else if command = "/explain_editor" then
    if a.editor.hasTab then
      let hint := match a.editor.path with
        | some p => basename p
        | none => "current tab"
      let prompt :=
        "You are a helpful assistant integrated into a development tool called GemNet.\n"
        ++ "Please explain the purpose and high-level functionality of the following code/text currently open in the editor tab (source file: '"
        ++ hint ++ "'):\n\n"
        ++ "--- Editor Content ---\n"
        ++ truncMarked 15000 a.editor.buffer
        ++ "\n---\n"
        ++ "Provide the explanation below:"
      let a1 := { a with ctx := Ctx.empty }
      streamGeminiApi prompt "chat" "Gemini" none a1
    else
      let a1 := handleStreamErrorA "Error: No active editor tab found to explain." "chat" a
      { a1 with ctx := Ctx.empty }
  else if command = "/edit_editor" then
    if a.editor.hasTab then
      let storedPath := match a.editor.path with
        | some p => p
        | none => "current tab"
      let hint := match a.editor.path with
        | some p => basename p
        | none => "current tab"
      let a1 := { a with ctx := ⟨some "edit_editor", none, none, some storedPath⟩ }
      { a1 with chat := (a1.chat.addMessage "GemNet"
          ("Editing content of '" ++ hint ++ "'. Provide instructions in next message.")
          true false false) }
    else
      let a1 := handleStreamErrorA "Error: No active editor tab found to edit." "chat" a
      { a1 with ctx := Ctx.empty }
  else
    let a1 := { a with ctx := Ctx.empty }
    streamGeminiApi (chatPrompt message) "chat" "Gemini" none a1

/-- GeminiController.process_user_chat. -/
def processUserChat (message : String) (a : App) : App :=
  if a.ctx.action = some "edit" then
    match a.ctx.files with
    | some (f :: fs) => requestEdit (f :: fs) message a
    | _ =>
      let a1 := handleStreamErrorA "Internal Error: Edit context lost file information."
        "editor" a
      { a1 with ctx := Ctx.empty }
  else if a.ctx.action = some "edit_editor" then
    let editorPath := match a.ctx.path with
      | some p => p
      | none => "current tab"
    if a.editor.hasTab then
      let hint := if editorPath ≠ "" ∧ editorPath ≠ "current tab" then basename editorPath
        else "current tab"
      streamGeminiApi (buildEditPrompt hint a.editor.buffer message []) "editor" "Gemini" none a
    else
      let a1 := handleStreamErrorA
        "Cannot edit: No active editor tab found or content is inaccessible." "editor" a
      { a1 with ctx := Ctx.empty }
  else if a.ctx.action = some "create" then
    match a.ctx.filename with
    | some f =>
      if f ≠ "" then
        let a1 := { a with ctx := { a.ctx with action := some "creating_file" } }
        streamGeminiApi (createContentPrompt f message) "file_create" "Gemini" (some f) a1
      else
        let a1 := handleStreamErrorA "Internal Error: Create context lost filename information."
          "chat" a
        { a1 with ctx := Ctx.empty }
    | none =>
      let a1 := handleStreamErrorA "Internal Error: Create context lost filename information."
        "chat" a
      { a1 with ctx := Ctx.empty }
  else
    processCommand message a

/-! ## Lemmas about pyStrip and the sanitizers -/

theorem mem_pyStrip {x : Char} {l : List Char} (h : x ∈ pyStrip l) : x ∈ l := by
  unfold pyStrip at h
  rw [List.mem_reverse] at h
  have h1 := (List.dropWhile_sublist isPySpace).subset h
  rw [List.mem_reverse] at h1
  exact (List.dropWhile_sublist isPySpace).subset h1

theorem head_dropWhile {p : Char → Bool} :
    ∀ (l : List Char) (c : Char), (l.dropWhile p).head? = some c → p c = false := by
  intro l
  induction l with
  | nil => intro c h; simp [List.dropWhile] at h
  | cons a t ih =>
    intro c h
    rw [List.dropWhile_cons] at h
    by_cases hp : p a = true
    · rw [if_pos hp] at h; exact ih c h
    · rw [if_neg hp] at h
      simp at h
      rw [← h]
      exact Bool.eq_false_iff.mpr hp

theorem dropWhile_eq_self_of_head {p : Char → Bool} {l : List Char}
    (h : ∀ c, l.head? = some c → p c = false) : l.dropWhile p = l := by
  cases l with
  | nil => rfl
  | cons a t =>
    rw [List.dropWhile_cons, if_neg]
    simp [h a rfl]

theorem pyStrip_eq_self {l : List Char}
    (h1 : ∀ c, l.head? = some c → isPySpace c = false)
    (h2 : ∀ c, l.getLast? = some c → isPySpace c = false) : pyStrip l = l := by
  unfold pyStrip
  rw [dropWhile_eq_self_of_head h1]
  rw [dropWhile_eq_self_of_head (by intro c hc; rw [List.head?_reverse] at hc; exact h2 c hc)]
  exact List.reverse_reverse l

theorem getLast_dropWhile {p : Char → Bool} :
    ∀ (l : List Char), l.dropWhile p ≠ [] → (l.dropWhile p).getLast? = l.getLast? := by
  intro l
  induction l with
  | nil => intro h; simp [List.dropWhile] at h
  | cons a t ih =>
    intro h
    rw [List.dropWhile_cons] at h ⊢
    by_cases hp : p a = true
    · rw [if_pos hp] at h ⊢
      have ht : t ≠ [] := by
        intro he; rw [he] at h; simp [List.dropWhile] at h
      rw [ih h, List.getLast?_cons]
      cases hgl : t.getLast? with
      | none =>
        cases t with
        | nil => exact absurd rfl ht
        | cons b u => simp [List.getLast?_cons] at hgl
      | some x => simp [hgl]
    · rw [if_neg hp]

theorem pyStrip_head {l : List Char} :
    ∀ c, (pyStrip l).head? = some c → isPySpace c = false := by
  intro c h
  unfold pyStrip at h
  rw [List.head?_reverse] at h
  by_cases hn : ((l.dropWhile isPySpace).reverse.dropWhile isPySpace) = []
  · rw [hn] at h; simp at h
  · rw [getLast_dropWhile _ hn, List.getLast?_reverse] at h
    exact head_dropWhile l c h

theorem pyStrip_last {l : List Char} :
    ∀ c, (pyStrip l).getLast? = some c → isPySpace c = false := by
  intro c h
  unfold pyStrip at h
  rw [List.getLast?_reverse] at h
  exact head_dropWhile _ c h

theorem filter_pyStrip_filter (p : Char → Bool) (l : List Char) :
    (pyStrip (l.filter p)).filter p = pyStrip (l.filter p) := by
  apply List.filter_eq_self.mpr
  intro a ha
  exact List.of_mem_filter (mem_pyStrip ha)

theorem sanitizeCreate_fixed {l : List Char}
    (hall : ∀ c ∈ l, allowedCreate c = true)
    (hhead : ∀ c, l.head? = some c → isPySpace c = false ∧ c ≠ '.')
    (hlast : ∀ c, l.getLast? = some c → isPySpace c = false ∧ c ≠ '.')
    (hne : l ≠ []) (hs1 : l ≠ ['_']) (hs2 : l ≠ ['-']) :
    sanitizeCreate ⟨l⟩ = ⟨l⟩ := by
  have hdata : (String.mk l).data = l := rfl
  have hfilter : l.filter allowedCreate = l := List.filter_eq_self.mpr hall
  have hstrip : pyStrip l = l :=
    pyStrip_eq_self (fun c hc => (hhead c hc).1) (fun c hc => (hlast c hc).1)
  have hnd : l ≠ ['.'] := by
    intro h
    exact (hhead '.' (by rw [h]; rfl)).2 rfl
  have hh : l.head? ≠ some '.' := fun h => (hhead '.' h).2 rfl
  have hl : l.getLast? ≠ some '.' := fun h => (hlast '.' h).2 rfl
  unfold sanitizeCreate
  rw [hdata, hfilter, hstrip]
  rw [if_neg hne, if_neg]
  simp [hnd, hs1, hs2, hh, hl]

theorem sanitizeSave_fixed {l : List Char}
    (hall : ∀ c ∈ l, allowedSave c = true)
    (hhead : ∀ c, l.head? = some c → isPySpace c = false ∧ c ≠ '.')
    (hlast : ∀ c, l.getLast? = some c → isPySpace c = false)
    (hne : l ≠ []) :
    sanitizeSave ⟨l⟩ = ⟨l⟩ := by
  have hdata : (String.mk l).data = l := rfl
  have hfilter : l.filter allowedSave = l := List.filter_eq_self.mpr hall
  have hstrip : pyStrip l = l :=
    pyStrip_eq_self (fun c hc => (hhead c hc).1) hlast
  have hh : l.head? ≠ some '.' := fun h => (hhead '.' h).2 rfl
  unfold sanitizeSave
  rw [hdata, hfilter, hstrip]
  rw [if_neg]
  simp [hne, hh]

theorem sanitizeCreate_idem (s : String) :
    sanitizeCreate (sanitizeCreate s) = sanitizeCreate s := by
  by_cases hA : pyStrip (s.data.filter allowedCreate) = []
  · have h1 : sanitizeCreate s = "gemini_generated_file.txt" := by
      unfold sanitizeCreate
      rw [if_pos hA]
    rw [h1]
    decide
  · have hall : ∀ c ∈ pyStrip (s.data.filter allowedCreate), allowedCreate c = true :=
      fun c hc => List.of_mem_filter (mem_pyStrip hc)
    by_cases hB : pyStrip (s.data.filter allowedCreate) = ['.']
        ∨ pyStrip (s.data.filter allowedCreate) = ['_']
        ∨ pyStrip (s.data.filter allowedCreate) = ['-']
        ∨ (pyStrip (s.data.filter allowedCreate)).head? = some '.'
        ∨ (pyStrip (s.data.filter allowedCreate)).getLast? = some '.'
    · have h1 : sanitizeCreate s =
          ⟨"gemini_generated_".data ++ pyStrip (s.data.filter allowedCreate) ++ ".txt".data⟩ := by
        unfold sanitizeCreate
        rw [if_neg hA, if_pos hB]
      rw [h1]
      have hd : ("gemini_generated_".data ++ pyStrip (s.data.filter allowedCreate)
          ++ ".txt".data).head? = some 'g' := rfl
      apply sanitizeCreate_fixed
      · have hpre : ∀ c ∈ ("gemini_generated_".data : List Char), allowedCreate c = true := by
          decide
        have hsuf : ∀ c ∈ (".txt".data : List Char), allowedCreate c = true := by
          decide
        intro c hc
        rcases List.mem_append.mp hc with hc1 | hc2
        · rcases List.mem_append.mp hc1 with hc3 | hc4
          · exact hpre c hc3
          · exact hall c hc4
        · exact hsuf c hc2
      · intro c hcc
        rw [hd] at hcc
        cases hcc
        decide
      · intro c hcc
        rw [List.getLast?_append_of_ne_nil _ (by decide : (".txt".data : List Char) ≠ [])] at hcc
        have : c = 't' := by
          have : (".txt".data : List Char).getLast? = some 't' := by decide
          rw [this] at hcc
          cases hcc
          rfl
        rw [this]
        decide
      · intro h
        rw [h] at hd
        cases hd
      · intro h
        rw [h] at hd
        cases hd
      · intro h
        rw [h] at hd
        cases hd
    · have h1 : sanitizeCreate s = ⟨pyStrip (s.data.filter allowedCreate)⟩ := by
        unfold sanitizeCreate
        rw [if_neg hA, if_neg hB]
      rw [h1]
      push_neg at hB
      apply sanitizeCreate_fixed hall
      · intro c hcc
        refine ⟨pyStrip_head c hcc, ?_⟩
        intro he
        rw [he] at hcc
        exact hB.2.2.2.1 hcc
      · intro c hcc
        refine ⟨pyStrip_last c hcc, ?_⟩
        intro he
        rw [he] at hcc
        exact hB.2.2.2.2 hcc
      · exact hA
      · exact hB.2.1
      · exact hB.2.2.1

theorem sanitizeSave_idem (s : String) :
    sanitizeSave (sanitizeSave s) = sanitizeSave s := by
  by_cases hA : pyStrip (s.data.filter allowedSave) = []
      ∨ (pyStrip (s.data.filter allowedSave)).head? = some '.'
  · have h1 : sanitizeSave s = "gemini_generated_file.txt" := by
      unfold sanitizeSave
      rw [if_pos hA]
    rw [h1]
    decide
  · have h1 : sanitizeSave s = ⟨pyStrip (s.data.filter allowedSave)⟩ := by
      unfold sanitizeSave
      rw [if_neg hA]
    rw [h1]
    push_neg at hA
    apply sanitizeSave_fixed
    · exact fun c hc => List.of_mem_filter (mem_pyStrip hc)
    · intro c hcc
      refine ⟨pyStrip_head c hcc, ?_⟩
      intro he
      rw [he] at hcc
      exact hA.2 hcc
    · exact fun c hcc => pyStrip_last c hcc
    · exact hA.1

/-- C9: both filename sanitizers are idempotent, and sanitizing the
    path-traversal string "../../etc/passwd" yields a name free of path
    separator characters, for the /create-time sanitizer and the
    save-time re-sanitizer alike. -/
theorem c9_sanitize_idempotent_pathsafe :
    (∀ s, sanitizeCreate (sanitizeCreate s) = sanitizeCreate s)
    ∧ (∀ s, sanitizeSave (sanitizeSave s) = sanitizeSave s)
    ∧ ((sanitizeCreate "../../etc/passwd").data.all (fun c => c != '/' && c != '\\') = true)
    ∧ ((sanitizeSave "../../etc/passwd").data.all (fun c => c != '/' && c != '\\') = true) :=
  ⟨sanitizeCreate_idem, sanitizeSave_idem, by decide, by decide⟩

/-! ## Lemmas about the worker event trace -/

theorem workerLoop_shape (env : RunEnv) (kind : String) :
    ∀ (items : List StreamItem) (i : Nat),
      (∃ ts : List String, (workerLoop env kind i items).1 = ts.map WEvent.chunk
        ∧ (workerLoop env kind i items).2 = true)
      ∨ (∃ (ts : List String) (m : String),
          (workerLoop env kind i items).1 = ts.map WEvent.chunk ++ [WEvent.error m kind]
          ∧ (workerLoop env kind i items).2 = false) := by
  intro items
  induction items with
  | nil => intro i; exact Or.inl ⟨[], rfl, rfl⟩
  | cons item rest ih =>
    intro i
    by_cases hc : cancelSeen env i = true
    · right
      refine ⟨[], "Stream cancelled", ?_, ?_⟩ <;> simp [workerLoop, hc]
    · rw [Bool.not_eq_true] at hc
      cases hb : item.block with
      | some rc =>
        right
        refine ⟨[], blockMsg rc.1 rc.2, ?_, ?_⟩ <;> simp [workerLoop, hc, hb]
      | none =>
        cases ht : item.text with
        | some t =>
          rcases ih (i + 1) with ⟨ts, h1, h2⟩ | ⟨ts, m, h1, h2⟩
          · left
            refine ⟨t :: ts, ?_, ?_⟩ <;> simp [workerLoop, hc, hb, ht, h1, h2]
          · right
            refine ⟨t :: ts, m, ?_, ?_⟩ <;> simp [workerLoop, hc, hb, ht, h1, h2]
        | none =>
          rcases ih (i + 1) with ⟨ts, h1, h2⟩ | ⟨ts, m, h1, h2⟩
          · left
            refine ⟨ts, ?_, ?_⟩ <;> simp [workerLoop, hc, hb, ht, h1, h2]
          · right
            refine ⟨ts, m, ?_, ?_⟩ <;> simp [workerLoop, hc, hb, ht, h1, h2]

theorem runWorker_shape (cfg : WorkerCfg) (env : RunEnv) :
    (∃ m, runWorker cfg env = [WEvent.error m cfg.contextType])
    ∨ (∃ (ts : List String) (t : WEvent), isTerminal t = true
        ∧ runWorker cfg env
          = WEvent.started cfg.sender cfg.contextType :: (ts.map WEvent.chunk ++ [t])) := by
  by_cases hk : env.apiKeyPresent = false
  · left
    exact ⟨excMsg (.generic "ValueError" "GOOGLE_API_KEY not found in worker thread."),
      by simp [runWorker, hk]⟩
  · cases hs : env.setupErr with
    | some e => left; exact ⟨excMsg e, by simp [runWorker, hk, hs]⟩
    | none =>
      cases hg : env.genErr with
      | some e =>
        right
        exact ⟨[], .error (excMsg e) cfg.contextType, rfl, by simp [runWorker, hk, hs, hg]⟩
      | none =>
        rcases workerLoop_shape env cfg.contextType env.items 0 with ⟨ts, h1, h2⟩ | ⟨ts, m, h1, h2⟩
        · cases hi : env.iterErr with
          | some e =>
            right
            exact ⟨ts, .error (excMsg e) cfg.contextType, rfl,
              by simp [runWorker, hk, hs, hg, hi, h1, h2]⟩
          | none =>
            right
            exact ⟨ts, .finished cfg.sender (finalKind cfg), rfl,
              by simp [runWorker, hk, hs, hg, hi, h1, h2]⟩
        · right
          exact ⟨ts, .error m cfg.contextType, rfl, by simp [runWorker, hk, hs, hg, h1, h2]⟩

theorem countP_chunks_terminal (ts : List String) :
    (ts.map WEvent.chunk).countP (fun e => isTerminal e) = 0 := by
  rw [List.countP_eq_zero]
  intro a ha
  rcases List.mem_map.mp ha with ⟨t, _, rfl⟩
  simp [isTerminal]

theorem runWorker_one_terminal (cfg : WorkerCfg) (env : RunEnv) :
    (runWorker cfg env).countP (fun e => isTerminal e) = 1 := by
  rcases runWorker_shape cfg env with ⟨m, h⟩ | ⟨ts, t, ht, h⟩
  · simp [h, List.countP_cons, isTerminal]
  · rw [h, List.countP_cons, List.countP_append, countP_chunks_terminal,
       List.countP_cons, ht]
    simp [isTerminal]

theorem runWorker_last_terminal (cfg : WorkerCfg) (env : RunEnv) :
    ∃ t, (runWorker cfg env).getLast? = some t ∧ isTerminal t = true := by
  rcases runWorker_shape cfg env with ⟨m, h⟩ | ⟨ts, t, ht, h⟩
  · exact ⟨.error m cfg.contextType, by simp [h], by simp [isTerminal]⟩
  · refine ⟨t, ?_, ht⟩
    rw [h]
    rw [List.getLast?_cons, List.getLast?_append_of_ne_nil _ (by simp : ([t] : List WEvent) ≠ [])]
    simp

theorem runWorker_error_is_last (cfg : WorkerCfg) (env : RunEnv)
    (pre : List WEvent) (m k : String) (post : List WEvent)
    (h : runWorker cfg env = pre ++ WEvent.error m k :: post) : post = [] := by
  by_contra hpost
  have hcount := runWorker_one_terminal cfg env
  rw [h] at hcount
  rw [show pre ++ WEvent.error m k :: post = (pre ++ [WEvent.error m k]) ++ post by simp] at hcount
  rw [List.countP_append, List.countP_append] at hcount
  have herr : ([WEvent.error m k] : List WEvent).countP (fun e => isTerminal e) = 1 := by
    simp [List.countP_cons, isTerminal]
  rw [herr] at hcount
  have hpost0 : post.countP (fun e => isTerminal e) = 0 := by omega
  obtain ⟨t, hlast, hterm⟩ := runWorker_last_terminal cfg env
  rw [h] at hlast
  rw [show pre ++ WEvent.error m k :: post = (pre ++ WEvent.error m k :: []) ++ post by simp]
    at hlast
  rw [List.getLast?_append_of_ne_nil _ hpost] at hlast
  have hmem := List.mem_of_getLast?_eq_some hlast
  have := (List.countP_eq_zero.mp hpost0) t hmem
  exact this hterm

theorem chunksOf_no_finished (l : List StreamItem) :
    (chunksOf l).countP (fun e => isFinished e) = 0 := by
  rw [List.countP_eq_zero]
  intro a ha
  rcases List.mem_filterMap.mp ha with ⟨it, _, hit⟩
  cases ht : it.text with
  | none => rw [ht] at hit; simp at hit
  | some t =>
    rw [ht] at hit
    simp at hit
    rw [← hit]
    simp [isFinished]

theorem workerLoop_cancelled (env : RunEnv) (kind : String) :
    ∀ (j : Nat) (items : List StreamItem) (i : Nat),
      env.cancelAt = some (i + j) → j < items.length →
      ((items.take j).all fun it => it.block.isNone) = true →
      workerLoop env kind i items
        = (chunksOf (items.take j) ++ [.error "Stream cancelled" kind], false) := by
  intro j
  induction j with
  | zero =>
    intro items i hca hlen _
    cases items with
    | nil => simp at hlen
    | cons it rest =>
      have hc : cancelSeen env i = true := by
        unfold cancelSeen
        rw [hca]
        simp
      simp [workerLoop, hc, chunksOf]
  | succ k ih =>
    intro items i hca hlen hall
    cases items with
    | nil => simp at hlen
    | cons it rest =>
      have hc : cancelSeen env i = false := by
        unfold cancelSeen
        rw [hca]
        have hlt : ¬ (i + (k + 1) ≤ i) := by omega
        simp [hlt]
      rw [List.take_succ_cons, List.all_cons] at hall
      have hb : it.block = none := by
        have h1 := (Bool.and_eq_true _ _).mp hall
        exact Option.isNone_iff_eq_none.mp h1.1
      have hall2 := ((Bool.and_eq_true _ _).mp hall).2
      have hrest := ih rest (i + 1)
        (by rw [show i + 1 + k = i + (k + 1) by omega]; exact hca)
        (by simp at hlen; omega) hall2
      cases ht : it.text with
      | some t =>
        simp [workerLoop, hc, hb, ht, hrest, chunksOf, List.take_succ_cons]
      | none =>
        simp [workerLoop, hc, hb, ht, hrest, chunksOf, List.take_succ_cons]

/-- C6 (amended): every run of the stream worker emits at most one started
    event, zero or more chunk events, and exactly one terminal event
    (finished or error) which is the last event of the run; the started
    event, when present, is the first event.  A run that fails before the
    API call begins (missing API key, configuration failure) emits only
    the error terminal, with no started event; every other run emits
    exactly one started event first. -/
theorem c6_worker_event_protocol (cfg : WorkerCfg) (env : RunEnv) :
    ((∃ m, runWorker cfg env = [WEvent.error m cfg.contextType])
      ∨ (∃ (ts : List String) (t : WEvent), isTerminal t = true
          ∧ runWorker cfg env
            = WEvent.started cfg.sender cfg.contextType :: (ts.map WEvent.chunk ++ [t])))
    ∧ (runWorker cfg env).countP (fun e => isTerminal e) = 1 :=
  ⟨runWorker_shape cfg env, runWorker_one_terminal cfg env⟩

/-- C6 counterexample: with GOOGLE_API_KEY absent the ValueError is raised
    before started is emitted, so this run emits zero started events -
    refuting the claim that every run emits exactly one started event. -/
theorem c6_counterexample :
    runWorker ⟨"m", "p", "chat", "Gemini", none⟩ ⟨false, none, none, [], none, none⟩
      = [WEvent.error
          "Worker Thread Error: ValueError - GOOGLE_API_KEY not found in worker thread."
          "chat"]
    ∧ (runWorker ⟨"m", "p", "chat", "Gemini", none⟩
        ⟨false, none, none, [], none, none⟩).countP (fun e => isStarted e) = 0 := by
  constructor <;> decide

/-- C4: when the first streamed item carries a content-safety block, the
    run emits started and then exactly one error event naming the block
    reason and category, and zero chunk events; and in general no event
    (in particular no chunk) ever follows an error event in any run. -/
theorem c4_safety_block_short_circuit (cfg : WorkerCfg) (env : RunEnv)
    (it : StreamItem) (r c : String)
    (hkey : env.apiKeyPresent = true) (hsetup : env.setupErr = none)
    (hgen : env.genErr = none) (hhead : env.items.head? = some it)
    (hblock : it.block = some (r, c)) (hcancel : env.cancelAt ≠ some 0) :
    runWorker cfg env
      = [WEvent.started cfg.sender cfg.contextType,
         WEvent.error (blockMsg r c) cfg.contextType]
    ∧ (runWorker cfg env).countP (fun e => isChunk e) = 0
    ∧ (∀ (cfg2 : WorkerCfg) (env2 : RunEnv) (pre : List WEvent) (m k : String)
        (post : List WEvent),
        runWorker cfg2 env2 = pre ++ WEvent.error m k :: post → post = []) := by
  have hc0 : cancelSeen env 0 = false := by
    unfold cancelSeen
    cases hca : env.cancelAt with
    | none => rfl
    | some k =>
      have hk0 : k ≠ 0 := by
        intro h
        rw [h] at hca
        exact hcancel hca
      simp only []
      rw [decide_eq_false]
      omega
  cases hitems : env.items with
  | nil => rw [hitems] at hhead; cases hhead
  | cons i0 rest =>
    rw [hitems] at hhead
    have hi0 : i0 = it := by
      have : some i0 = some it := hhead
      injection this
    subst hi0
    have hmain : runWorker cfg env
        = [WEvent.started cfg.sender cfg.contextType,
           WEvent.error (blockMsg r c) cfg.contextType] := by
      unfold runWorker
      simp [hkey, hsetup, hgen, hitems, workerLoop, hc0, hblock]
    refine ⟨hmain, ?_, fun cfg2 env2 pre m k post h =>
      runWorker_error_is_last cfg2 env2 pre m k post h⟩
    rw [hmain]
    simp [List.countP_cons, isChunk]

/-- C4 witness: a concrete run whose first item is safety-blocked. -/
theorem c4_witness :
    runWorker ⟨"m", "p", "chat", "Gemini", none⟩
        ⟨true, none, none, [⟨some ("SAFETY", "HARM_CATEGORY_HATE_SPEECH"), none⟩], none, none⟩
      = [WEvent.started "Gemini" "chat",
         WEvent.error (blockMsg "SAFETY" "HARM_CATEGORY_HATE_SPEECH") "chat"]
    ∧ (runWorker ⟨"m", "p", "chat", "Gemini", none⟩
        ⟨true, none, none, [⟨some ("SAFETY", "HARM_CATEGORY_HATE_SPEECH"), none⟩], none,
          none⟩).countP (fun e => isChunk e) = 0 := by
  have h := c4_safety_block_short_circuit
    ⟨"m", "p", "chat", "Gemini", none⟩
    ⟨true, none, none, [⟨some ("SAFETY", "HARM_CATEGORY_HATE_SPEECH"), none⟩], none, none⟩
    ⟨some ("SAFETY", "HARM_CATEGORY_HATE_SPEECH"), none⟩
    "SAFETY" "HARM_CATEGORY_HATE_SPEECH" rfl rfl rfl rfl rfl (by decide)
  exact ⟨h.1, h.2.1⟩

/-- C5: once the worker observes the cancellation flag (first read true at
    iteration j, within the stream), it emits exactly the chunks of the
    items before j, then the cancellation error as terminal event, and
    emits no finished event. -/
theorem c5_cancellation_contract (cfg : WorkerCfg) (env : RunEnv) (j : Nat)
    (hkey : env.apiKeyPresent = true) (hsetup : env.setupErr = none)
    (hgen : env.genErr = none)
    (hcancel : env.cancelAt = some j) (hlen : j < env.items.length)
    (hnoblock : ((env.items.take j).all fun it => it.block.isNone) = true) :
    runWorker cfg env
      = WEvent.started cfg.sender cfg.contextType ::
        (chunksOf (env.items.take j) ++ [WEvent.error "Stream cancelled" cfg.contextType])
    ∧ (runWorker cfg env).countP (fun e => isFinished e) = 0 := by
  have hloop := workerLoop_cancelled env cfg.contextType j env.items 0
    (by simpa using hcancel) hlen hnoblock
  have hmain : runWorker cfg env
      = WEvent.started cfg.sender cfg.contextType ::
        (chunksOf (env.items.take j) ++ [WEvent.error "Stream cancelled" cfg.contextType]) := by
    unfold runWorker
    simp [hkey, hsetup, hgen, hloop]
  refine ⟨hmain, ?_⟩
  rw [hmain, List.countP_cons, List.countP_append, chunksOf_no_finished, List.countP_cons]
  simp [isFinished]

/-- C5 witness: a concrete run cancelled at the third iteration. -/
theorem c5_witness :
    runWorker ⟨"m", "p", "chat", "Gemini", none⟩
        ⟨true, none, none,
          [⟨none, some "a"⟩, ⟨none, some "b"⟩, ⟨none, some "c"⟩], none, some 2⟩
      = [WEvent.started "Gemini" "chat", WEvent.chunk "a", WEvent.chunk "b",
         WEvent.error "Stream cancelled" "chat"]
    ∧ (runWorker ⟨"m", "p", "chat", "Gemini", none⟩
        ⟨true, none, none,
          [⟨none, some "a"⟩, ⟨none, some "b"⟩, ⟨none, some "c"⟩], none,
          some 2⟩).countP (fun e => isFinished e) = 0 := by
  have h := c5_cancellation_contract ⟨"m", "p", "chat", "Gemini", none⟩
    ⟨true, none, none,
      [⟨none, some "a"⟩, ⟨none, some "b"⟩, ⟨none, some "c"⟩], none, some 2⟩
    2 rfl rfl rfl rfl (by decide) (by decide)
  exact ⟨h.1, h.2⟩

/-! ## Lemmas about string joins and the editor stream -/

theorem foldl_append_str (cs : List String) :
    ∀ b : String, cs.foldl (fun r s => r ++ s) b = b ++ String.join cs := by
  induction cs with
  | nil =>
    intro b
    simp [String.join]
  | cons c cs ih =>
    intro b
    have hjoin : String.join (c :: cs) = c ++ String.join cs := by
      show cs.foldl (fun r s => r ++ s) ("" ++ c) = c ++ String.join cs
      rw [String.empty_append, ih c]
    show cs.foldl (fun r s => r ++ s) (b ++ c) = b ++ String.join (c :: cs)
    rw [ih (b ++ c), hjoin, String.append_assoc]

theorem strJoin_cons (c : String) (cs : List String) :
    String.join (c :: cs) = c ++ String.join cs := by
  show cs.foldl (fun r s => r ++ s) ("" ++ c) = c ++ String.join cs
  rw [String.empty_append, foldl_append_str cs c]

theorem editor_fold_chunks (chunks : List String) :
    ∀ e : EditorPane, e.isStreaming = true → e.hasTab = true →
      chunks.foldl (fun st c1 => st.handleStreamChunk c1) e
        = { e with buffer := e.buffer ++ String.join chunks } := by
  induction chunks with
  | nil =>
    intro e _ _
    simp [String.join]
  | cons c cs ih =>
    intro e hs ht
    have hstep : e.handleStreamChunk c = { e with buffer := e.buffer ++ c } := by
      unfold EditorPane.handleStreamChunk
      simp [hs, ht]
    show cs.foldl (fun st c1 => st.handleStreamChunk c1) (e.handleStreamChunk c) = _
    rw [hstep, ih { e with buffer := e.buffer ++ c } (by simp [hs]) (by simp [ht])]
    simp [strJoin_cons, String.append_assoc]

/-- C10: when an editor-destination stream errors out (including
    cancellation) after chunks were applied, the partial streamed content
    stays in the buffer - the prior content cleared at stream start is not
    restored - and a non-empty buffer is marked modified. -/
theorem c10_editor_error_keeps_partial (e : EditorPane) (chunks : List String) (msg : String)
    (htab : e.hasTab = true) :
    ((chunks.foldl (fun st c1 => st.handleStreamChunk c1)
        (e.handleStreamStarted "Gemini" "editor")).handleStreamError msg "editor").buffer
      = String.join chunks
    ∧ (String.join chunks ≠ "" →
        ((chunks.foldl (fun st c1 => st.handleStreamChunk c1)
          (e.handleStreamStarted "Gemini" "editor")).handleStreamError msg "editor").isModified
          = true) := by
  have hstart : e.handleStreamStarted "Gemini" "editor"
      = { e with isStreaming := true, buffer := "",
                 statusLog := e.statusLog ++ ["Receiving suggested edit from Gemini..."] } := by
    unfold EditorPane.handleStreamStarted
    simp [htab]
  rw [hstart]
  rw [editor_fold_chunks chunks _ (by simp) (by simp [htab])]
  simp only [String.empty_append]
  constructor
  · unfold EditorPane.handleStreamError
    simp only [ne_eq, not_true_eq_false, if_false]
    split
    · rfl
    · rfl
  · intro hne
    unfold EditorPane.handleStreamError
    simp only [ne_eq, not_true_eq_false, if_false]
    split
    · rfl
    · rename_i hcond
      simp only [not_and, not_not] at hcond
      have := hcond (by simpa using htab) (by simpa using hne)
      simpa using this

/-- C10 witness: a concrete editor stream with two chunks then an error. -/
theorem c10_witness :
    ((["x", "y"].foldl (fun st c1 => st.handleStreamChunk c1)
        ((⟨true, "old", false, false, [], none⟩ : EditorPane).handleStreamStarted
          "Gemini" "editor")).handleStreamError "Stream cancelled" "editor").buffer = "xy"
    ∧ ((["x", "y"].foldl (fun st c1 => st.handleStreamChunk c1)
        ((⟨true, "old", false, false, [], none⟩ : EditorPane).handleStreamStarted
          "Gemini" "editor")).handleStreamError "Stream cancelled" "editor").isModified
        = true := by
  have h := c10_editor_error_keeps_partial ⟨true, "old", false, false, [], none⟩
    ["x", "y"] "Stream cancelled" rfl
  exact ⟨h.1, h.2 (by decide)⟩

/-! ## Lemmas about the chat and editor error handlers -/

theorem finalizeVisuals_log (p : ChatPane) : p.finalizeVisuals.log = p.log := by
  unfold ChatPane.finalizeVisuals ChatPane.resetStream
  split <;> rfl

theorem addMessage_log (p : ChatPane) (s m : String) (b1 b2 b3 : Bool) :
    (p.addMessage s m b1 b2 b3).log = p.log ++ [⟨s, m, b1, b2, b3⟩] := by
  unfold ChatPane.addMessage
  split
  · simp [finalizeVisuals_log]
  · rfl

theorem chat_handleError_log_chat (p : ChatPane) (msg : String) :
    (p.handleStreamError msg "chat").log = p.log ++ [⟨"Error", msg, false, true, false⟩] := by
  unfold ChatPane.handleStreamError
  rw [if_neg (by simp)]
  show ((p.addMessage "Error" msg false true false).resetStream).log = _
  unfold ChatPane.resetStream
  simp [addMessage_log]

theorem chat_handleError_log_fc (p : ChatPane) (msg : String) :
    (p.handleStreamError msg "file_create").log
      = p.log ++ [⟨"Error", msg, false, true, false⟩] := by
  unfold ChatPane.handleStreamError
  rw [if_neg (by simp)]
  show ((p.addMessage "Error" msg false true false).resetStream).log = _
  unfold ChatPane.resetStream
  simp [addMessage_log]

theorem editor_handleError_statusLog (e : EditorPane) (msg : String) :
    (e.handleStreamError msg "editor").statusLog
      = e.statusLog ++ ["Error during edit: " ++ msg] := by
  unfold EditorPane.handleStreamError
  rw [if_neg (by simp)]
  split <;> rfl

/-- C2: processing any stream error event always leaves the controller
    context empty, routes the error message to the consumer of the
    destination kind carried on the event (editor pane for editor, chat
    pane for chat and file_create, chat fallback otherwise), and discards
    the file-create buffer when the destination is file_create. -/
theorem c2_error_clears_context (a : App) (sid : Nat) (msg kind : String) :
    (deliverEvent sid (WEvent.error msg kind) a).ctx = Ctx.empty
    ∧ (deliverEvent sid (WEvent.error msg kind) a).editor.statusLog
      = (if errorUiKind kind = "editor"
         then a.editor.statusLog ++ ["Error during edit: " ++ msg]
         else a.editor.statusLog)
    ∧ (deliverEvent sid (WEvent.error msg kind) a).chat.log
      = (if errorUiKind kind = "editor" then a.chat.log
         else if errorUiKind kind = "chat" ∨ errorUiKind kind = "file_create"
         then a.chat.log ++ [⟨"Error", msg, false, true, false⟩]
         else a.chat.log
            ++ [⟨"Error", "(" ++ errorUiKind kind ++ ") " ++ msg, false, true, false⟩])
    ∧ (deliverEvent sid (WEvent.error msg kind) a).fileBuf
      = (if errorUiKind kind = "file_create" then "" else a.fileBuf) := by
  refine ⟨rfl, ?_, ?_, ?_⟩ <;>
  · simp only [deliverEvent, cleanupThread, handleStreamErrorA]
    repeat' split
    all_goals
      simp_all [editor_handleError_statusLog, chat_handleError_log_chat,
        chat_handleError_log_fc, addMessage_log]

/-! ## C7: lost edit payload -/

/-- C7 (amended): consuming a user message while the edit context has an
    empty or missing target_paths payload signals the internal error to
    the EDITOR destination (not the chat destination), clears the context,
    starts no stream session, and performs no retry. -/
theorem c7_lost_edit_payload (a : App) (msg : String)
    (hact : a.ctx.action = some "edit")
    (hfiles : a.ctx.files = none ∨ a.ctx.files = some []) :
    (processUserChat msg a).ctx = Ctx.empty
    ∧ (processUserChat msg a).sessions = a.sessions
    ∧ (processUserChat msg a).editor.statusLog
      = a.editor.statusLog
        ++ ["Error during edit: Internal Error: Edit context lost file information."]
    ∧ (processUserChat msg a).chat.log = a.chat.log := by
  have hbranch : processUserChat msg a
      = { handleStreamErrorA "Internal Error: Edit context lost file information." "editor" a
          with ctx := Ctx.empty } := by
    unfold processUserChat
    rw [if_pos hact]
    rcases hfiles with h | h <;> rw [h]
  rw [hbranch]
  have hek : errorUiKind "editor" = "editor" := by decide
  refine ⟨rfl, ?_, ?_, ?_⟩ <;>
    simp [handleStreamErrorA, hek, editor_handleError_statusLog]

/-- C7 counterexample: with the edit context holding an empty files list,
    the internal error is routed to the editor pane and the chat pane
    receives nothing - refuting the claim that it is signaled to the chat
    destination. -/
theorem c7_counterexample :
    (processUserChat "add a docstring"
        ⟨⟨some "edit", some [], none, none⟩, true, "m", none, [], "",
          ⟨false, "", "", false, [], []⟩, ⟨false, "", false, false, [], none⟩, [],
          "dir"⟩).chat.log = []
    ∧ (processUserChat "add a docstring"
        ⟨⟨some "edit", some [], none, none⟩, true, "m", none, [], "",
          ⟨false, "", "", false, [], []⟩, ⟨false, "", false, false, [], none⟩, [],
          "dir"⟩).editor.statusLog
      = ["Error during edit: Internal Error: Edit context lost file information."] := by
  constructor <;> decide

/-- C7 witness: the amended theorem applied at the same concrete state. -/
theorem c7_witness :
    (processUserChat "add a docstring"
        ⟨⟨some "edit", some [], none, none⟩, true, "m", none, [], "",
          ⟨false, "", "", false, [], []⟩, ⟨false, "", false, false, [], none⟩, [],
          "dir"⟩).ctx = Ctx.empty
    ∧ (processUserChat "add a docstring"
        ⟨⟨some "edit", some [], none, none⟩, true, "m", none, [], "",
          ⟨false, "", "", false, [], []⟩, ⟨false, "", false, false, [], none⟩, [],
          "dir"⟩).sessions = [] := by
  have h := c7_lost_edit_payload
    ⟨⟨some "edit", some [], none, none⟩, true, "m", none, [], "",
      ⟨false, "", "", false, [], []⟩, ⟨false, "", false, false, [], none⟩, [], "dir"⟩
    "add a docstring" rfl (Or.inr rfl)
  exact ⟨h.1, h.2.1⟩

/-! ## C1: stale-session events -/

/-- The concrete two-session race: session A (editor destination) emits a
    chunk, session B (editor destination) supersedes it and starts, then a
    late chunk of A arrives, then a chunk of B. -/
def c1Trace : App :=
  deliverEvent 1 (.chunk "B1")
    (deliverEvent 0 (.chunk "A2")
      (deliverEvent 1 (.started "Gemini" "editor")
        (streamGeminiApi "p2" "editor" "Gemini" none
          (deliverEvent 0 (.chunk "A1")
            (deliverEvent 0 (.started "Gemini" "editor")
              (streamGeminiApi "p1" "editor" "Gemini" none
                ⟨Ctx.empty, true, "m", none, [], "",
                  ⟨false, "", "", false, [], []⟩,
                  ⟨true, "old", false, false, [], none⟩, [], "dir"⟩))))))

/-- C1 counterexample: after session B starts, the late chunk "A2" of the
    stale session A is appended to the editor buffer, so B's destination
    buffer reads "A2B1" instead of exactly B's own chunks "B1" - refuting
    stale-session immunity. -/
theorem c1_counterexample :
    c1Trace.editor.buffer = "A2B1" ∧ ("A2B1" : String) ≠ "B1" := by
  constructor <;> decide

/-- C1 (amended): the controller cannot identify stale-session events -
    the Qt signals carry no session identity, so delivery is independent
    of the emitting session and a stale session's chunk is routed by the
    currently active worker's destination kind into the new session's
    buffer, as the concrete race shows. -/
theorem c1_stale_session_routing :
    (∀ (sidA sidB : Nat) (ev : WEvent) (a : App),
      deliverEvent sidA ev a = deliverEvent sidB ev a)
    ∧ c1Trace.editor.buffer = "A2B1" :=
  ⟨fun _ _ _ _ => rfl, by decide⟩

/-! ## C3: the /create round trip -/

/-- A fresh application start state over a given current directory. -/
def c3Start (fsd : List (String × String)) : App :=
  ⟨Ctx.empty, true, "gemini-1.5-flash-latest", none, [], "",
    ⟨false, "", "", false, [], []⟩, ⟨false, "", false, false, [], none⟩, fsd, "dir"⟩

/-- The worker configuration of the file-create session the run starts. -/
def c3Cfg (desc : String) : WorkerCfg :=
  ⟨"gemini-1.5-flash-latest", createContentPrompt "foo.txt" desc, "file_create",
    "Gemini", some "foo.txt"⟩

/-- A clean worker environment yielding exactly the given chunk texts. -/
def cleanEnv (texts : List String) : RunEnv :=
  ⟨true, none, none, texts.map (fun c => ⟨none, some c⟩), none, none⟩

theorem workerLoop_clean (env : RunEnv) (hcan : env.cancelAt = none) (kind : String) :
    ∀ (texts : List String) (i : Nat),
      workerLoop env kind i (texts.map (fun c => (⟨none, some c⟩ : StreamItem)))
        = (texts.map WEvent.chunk, true) := by
  intro texts
  induction texts with
  | nil => intro i; rfl
  | cons t ts ih =>
    intro i
    have hc : cancelSeen env i = false := by
      unfold cancelSeen
      rw [hcan]
    simp [workerLoop, hc, ih (i + 1)]

theorem runWorker_clean (cfg : WorkerCfg) (texts : List String) :
    runWorker cfg (cleanEnv texts)
      = WEvent.started cfg.sender cfg.contextType ::
        (texts.map WEvent.chunk ++ [WEvent.finished cfg.sender (finalKind cfg)]) := by
  have hloop := workerLoop_clean (cleanEnv texts) rfl cfg.contextType texts 0
  unfold runWorker
  simp [cleanEnv] at hloop ⊢
  simp [hloop]

theorem containsSub_right (y : String) (x z hay : String) (h : hay = x ++ y ++ z) :
    containsSub hay y :=
  ⟨x.data, z.data, by rw [h]; simp [String.data_append]⟩

theorem deliver_start_fc (sid : Nat) (a : App) (sender : String) :
    (deliverEvent sid (WEvent.started sender "file_create") a).ctx = a.ctx
    ∧ (deliverEvent sid (WEvent.started sender "file_create") a).disk = a.disk
    ∧ (deliverEvent sid (WEvent.started sender "file_create") a).activeWorker = a.activeWorker
    ∧ (deliverEvent sid (WEvent.started sender "file_create") a).fileBuf = "" :=
  ⟨rfl, rfl, rfl, rfl⟩

theorem foldChunks_fc (sid : Nat) (chunks : List String) :
    ∀ a : App, a.activeWorker = some (0, "file_create") →
      ((chunks.map WEvent.chunk).foldl (fun st ev => deliverEvent sid ev st) a).ctx = a.ctx
      ∧ ((chunks.map WEvent.chunk).foldl (fun st ev => deliverEvent sid ev st) a).disk = a.disk
      ∧ ((chunks.map WEvent.chunk).foldl (fun st ev => deliverEvent sid ev st) a).activeWorker
        = a.activeWorker
      ∧ ((chunks.map WEvent.chunk).foldl (fun st ev => deliverEvent sid ev st) a).fileBuf
        = a.fileBuf ++ String.join chunks := by
  induction chunks with
  | nil =>
    intro a _
    refine ⟨rfl, rfl, rfl, ?_⟩
    simp [String.join]
  | cons c cs ih =>
    intro a hw
    have hstep : deliverEvent sid (WEvent.chunk c) a
        = { a with fileBuf := a.fileBuf ++ c, chat := a.chat.handleStreamChunk c } := by
      show handleStreamChunkA c a = _
      unfold handleStreamChunkA
      rw [hw]
      rfl
    have hmap : (c :: cs).map WEvent.chunk = WEvent.chunk c :: cs.map WEvent.chunk := rfl
    rw [hmap]
    rw [List.foldl_cons, hstep]
    have ih2 := ih { a with fileBuf := a.fileBuf ++ c, chat := a.chat.handleStreamChunk c }
      (by simpa using hw)
    refine ⟨ih2.1, ih2.2.1, ih2.2.2.1, ?_⟩
    rw [ih2.2.2.2]
    simp [strJoin_cons, String.append_assoc]

theorem deliver_finish_c3 (sid : Nat) (a : App) (sender : String)
    (hact : a.ctx.action = some "creating_file") :
    (deliverEvent sid (WEvent.finished sender "create_success:foo.txt") a).disk
      = a.disk ++ [(saveName (a.disk.map Prod.fst) "foo.txt", a.fileBuf)]
    ∧ (deliverEvent sid (WEvent.finished sender "create_success:foo.txt") a).ctx
      = Ctx.empty := by
  have hss : strStarts "create_success:foo.txt" "create_success:" = true := by decide
  have hsan : sanitizeSave "foo.txt" = "foo.txt" := by decide
  constructor <;>
  · unfold deliverEvent cleanupThread handleStreamFinishedA saveGeneratedFile saveFileFS
    simp only [hss, if_true]
    simp only [show afterColon ("create_success:foo.txt").data = some ("foo.txt").data from rfl]
    simp only [show (⟨("foo.txt").data⟩ : String) = "foo.txt" from rfl, hsan]
    split <;> simp [hact]

theorem freshFrom_is_cand (names : List String) (base ext : String) :
    ∀ (fuel n : Nat), ∃ m, freshFrom names base ext n fuel = candName base ext m := by
  intro fuel
  induction fuel with
  | zero => intro n; exact ⟨n, rfl⟩
  | succ k ih =>
    intro n
    unfold freshFrom
    split
    · exact ih (n + 1)
    · exact ⟨n, rfl⟩

/-- C3: the run "/create foo.txt" then a non-empty description starts
    exactly one stream session, with destination kind file_create and a
    prompt containing both the filename and the description; delivering
    that session's successful event trace writes a file whose content is
    exactly the concatenation of the emitted chunks, under the name
    foo.txt or a counter-suffixed variant, and clears the context. -/
theorem c3_create_round_trip (fsd : List (String × String)) (desc : String)
    (hdesc : desc ≠ "") (chunks : List String) :
    (processUserChat desc (processUserChat "/create foo.txt" (c3Start fsd))).sessions
      = [⟨"gemini-1.5-flash-latest", createContentPrompt "foo.txt" desc, "file_create",
          "Gemini", some "foo.txt"⟩]
    ∧ containsSub (createContentPrompt "foo.txt" desc) "foo.txt"
    ∧ containsSub (createContentPrompt "foo.txt" desc) desc
    ∧ ((runWorker (c3Cfg desc) (cleanEnv chunks)).foldl
          (fun st ev => deliverEvent 0 ev st)
          (processUserChat desc (processUserChat "/create foo.txt" (c3Start fsd)))).disk
        = fsd ++ [(saveName (fsd.map Prod.fst) "foo.txt", String.join chunks)]
    ∧ ((runWorker (c3Cfg desc) (cleanEnv chunks)).foldl
          (fun st ev => deliverEvent 0 ev st)
          (processUserChat desc (processUserChat "/create foo.txt" (c3Start fsd)))).ctx
        = Ctx.empty
    ∧ (saveName (fsd.map Prod.fst) "foo.txt" = "foo.txt"
        ∨ ∃ n, saveName (fsd.map Prod.fst) "foo.txt" = candName "foo" ".txt" n) := by
  refine ⟨rfl, ?_, ?_, ?_, ?_, ?_⟩
  · refine ⟨("You are a helpful file generation assistant called GemNet.\n"
        ++ "The user wants to create a file named '").data,
      ("' with the following purpose/content described:\n"
        ++ "Description: '" ++ desc ++ "'\n\n"
        ++ "Generate ONLY the raw file content based on the description.\n"
        ++ "IMPORTANT: Do NOT include the filename, explanations, introductions, apologies, ```markdown formatting```, or any text other than the required file content itself.").data,
      ?_⟩
    unfold createContentPrompt
    simp [String.data_append, List.append_assoc]
  · refine ⟨("You are a helpful file generation assistant called GemNet.\n"
        ++ "The user wants to create a file named '" ++ "foo.txt"
        ++ "' with the following purpose/content described:\n"
        ++ "Description: '").data,
      ("'\n\n"
        ++ "Generate ONLY the raw file content based on the description.\n"
        ++ "IMPORTANT: Do NOT include the filename, explanations, introductions, apologies, ```markdown formatting```, or any text other than the required file content itself.").data,
      ?_⟩
    unfold createContentPrompt
    simp [String.data_append, List.append_assoc]
  all_goals
    have hevs := runWorker_clean (c3Cfg desc) chunks
    have hfin : finalKind (c3Cfg desc) = "create_success:foo.txt" := rfl
    have hsend : (c3Cfg desc).sender = "Gemini" := rfl
    have hct : (c3Cfg desc).contextType = "file_create" := rfl
    rw [hfin, hsend, hct] at hevs
  · rw [hevs]
    simp only [List.foldl_cons, List.foldl_append, List.foldl_nil]
    have hw2 : (processUserChat desc (processUserChat "/create foo.txt"
        (c3Start fsd))).activeWorker = some (0, "file_create") := rfl
    have hs := deliver_start_fc 0
      (processUserChat desc (processUserChat "/create foo.txt" (c3Start fsd))) "Gemini"
    have hb1w : (deliverEvent 0 (WEvent.started "Gemini" "file_create")
        (processUserChat desc (processUserChat "/create foo.txt" (c3Start fsd)))).activeWorker
        = some (0, "file_create") := by rw [hs.2.2.1, hw2]
    have hf := foldChunks_fc 0 chunks
      (deliverEvent 0 (WEvent.started "Gemini" "file_create")
        (processUserChat desc (processUserChat "/create foo.txt" (c3Start fsd)))) hb1w
    have hb2act : ((chunks.map WEvent.chunk).foldl (fun st ev => deliverEvent 0 ev st)
        (deliverEvent 0 (WEvent.started "Gemini" "file_create")
          (processUserChat desc (processUserChat "/create foo.txt"
            (c3Start fsd))))).ctx.action = some "creating_file" := by
      rw [hf.1, hs.1]
      rfl
    have hd := deliver_finish_c3 0 _ "Gemini" hb2act
    rw [hd.1]
    rw [hf.2.1, hs.2.1, hf.2.2.2, hs.2.2.2]
    have hdisk2 : (processUserChat desc (processUserChat "/create foo.txt"
        (c3Start fsd))).disk = fsd := rfl
    rw [hdisk2, String.empty_append]
  · rw [hevs]
    simp only [List.foldl_cons, List.foldl_append, List.foldl_nil]
    have hw2 : (processUserChat desc (processUserChat "/create foo.txt"
        (c3Start fsd))).activeWorker = some (0, "file_create") := rfl
    have hs := deliver_start_fc 0
      (processUserChat desc (processUserChat "/create foo.txt" (c3Start fsd))) "Gemini"
    have hb1w : (deliverEvent 0 (WEvent.started "Gemini" "file_create")
        (processUserChat desc (processUserChat "/create foo.txt" (c3Start fsd)))).activeWorker
        = some (0, "file_create") := by rw [hs.2.2.1, hw2]
    have hf := foldChunks_fc 0 chunks
      (deliverEvent 0 (WEvent.started "Gemini" "file_create")
        (processUserChat desc (processUserChat "/create foo.txt" (c3Start fsd)))) hb1w
    have hb2act : ((chunks.map WEvent.chunk).foldl (fun st ev => deliverEvent 0 ev st)
        (deliverEvent 0 (WEvent.started "Gemini" "file_create")
          (processUserChat desc (processUserChat "/create foo.txt"
            (c3Start fsd))))).ctx.action = some "creating_file" := by
      rw [hf.1, hs.1]
      rfl
    exact (deliver_finish_c3 0 _ "Gemini" hb2act).2
  · by_cases hmem : "foo.txt" ∈ fsd.map Prod.fst
    · right
      unfold saveName
      rw [if_pos hmem]
      have hsp : splitext "foo.txt" = ("foo", ".txt") := by decide
      rw [hsp]
      exact freshFrom_is_cand _ _ _ _ _
    · left
      unfold saveName
      rw [if_neg hmem]

/-- C3 witness: a concrete run where foo.txt already exists, so the
    content "print" (the concatenation of the chunks "pri", "nt") is
    written under the suffixed name foo_1.txt. -/
theorem c3_witness :
    ("hello world" : String) ≠ ""
    ∧ ((runWorker (c3Cfg "hello world") (cleanEnv ["pri", "nt"])).foldl
          (fun st ev => deliverEvent 0 ev st)
          (processUserChat "hello world"
            (processUserChat "/create foo.txt" (c3Start [("foo.txt", "old")])))).disk
        = [("foo.txt", "old"), ("foo_1.txt", "print")]
    ∧ ((runWorker (c3Cfg "hello world") (cleanEnv ["pri", "nt"])).foldl
          (fun st ev => deliverEvent 0 ev st)
          (processUserChat "hello world"
            (processUserChat "/create foo.txt" (c3Start [("foo.txt", "old")])))).ctx
        = Ctx.empty := by
  have h := c3_create_round_trip [("foo.txt", "old")] "hello world" (by decide) ["pri", "nt"]
  exact ⟨by decide, h.2.2.2.1, h.2.2.2.2.1⟩

/-! ## C8: collision handling on save -/

theorem decDigitsAux_irrel : ∀ (n f1 f2 : Nat), n < f1 → n < f2 →
    decDigitsAux f1 n = decDigitsAux f2 n := by
  intro n
  induction n using Nat.strong_induction_on with
  | _ n ih =>
    intro f1 f2 h1 h2
    cases f1 with
    | zero => omega
    | succ g1 =>
      cases f2 with
      | zero => omega
      | succ g2 =>
        unfold decDigitsAux
        by_cases hn : n < 10
        · rw [if_pos hn, if_pos hn]
        · rw [if_neg hn, if_neg hn]
          have hd : n / 10 < n := Nat.div_lt_self (by omega) (by omega)
          rw [ih (n / 10) hd g1 g2 (by omega) (by omega)]

/-- The canonical digit list of n. -/
def decDigits (n : Nat) : List Char := decDigitsAux (n + 1) n

theorem decDigits_eq (n : Nat) :
    decDigits n = if n < 10 then [Nat.digitChar n]
      else decDigits (n / 10) ++ [Nat.digitChar (n % 10)] := by
  have hstep : decDigitsAux (n + 1) n
      = if n < 10 then [Nat.digitChar n]
        else decDigitsAux n (n / 10) ++ [Nat.digitChar (n % 10)] := rfl
  unfold decDigits
  rw [hstep]
  by_cases hn : n < 10
  · rw [if_pos hn, if_pos hn]
  · have hd : n / 10 < n := Nat.div_lt_self (by omega) (by omega)
    rw [if_neg hn, if_neg hn]
    rw [decDigitsAux_irrel (n / 10) n (n / 10 + 1) hd (by omega)]

theorem natToStr_data (n : Nat) : (natToStr n).data = decDigits n := rfl

theorem digitChar_inj10 : ∀ a b : Fin 10, Nat.digitChar a.val = Nat.digitChar b.val →
    a = b := by decide

theorem decDigits_ne_nil (n : Nat) : decDigits n ≠ [] := by
  rw [decDigits_eq]
  by_cases hn : n < 10
  · rw [if_pos hn]; simp
  · rw [if_neg hn]; simp

theorem decDigits_inj : ∀ a b : Nat, decDigits a = decDigits b → a = b := by
  intro a
  induction a using Nat.strong_induction_on with
  | _ a ih =>
    intro b h
    rw [decDigits_eq a, decDigits_eq b] at h
    by_cases ha : a < 10
    · by_cases hb : b < 10
      · rw [if_pos ha, if_pos hb] at h
        have hab : Nat.digitChar a = Nat.digitChar b := by
          injection h
        have := digitChar_inj10 ⟨a, ha⟩ ⟨b, hb⟩ hab
        exact congrArg Fin.val this
      · rw [if_pos ha, if_neg hb] at h
        have hlen := congrArg List.length h
        simp at hlen
        have := decDigits_ne_nil (b / 10)
        cases hdb : decDigits (b / 10) with
        | nil => exact absurd hdb this
        | cons x xs => rw [hdb] at hlen; simp at hlen
    · by_cases hb : b < 10
      · rw [if_neg ha, if_pos hb] at h
        have hlen := congrArg List.length h
        simp at hlen
        have := decDigits_ne_nil (a / 10)
        cases hda : decDigits (a / 10) with
        | nil => exact absurd hda this
        | cons x xs => rw [hda] at hlen; simp at hlen
      · rw [if_neg ha, if_neg hb] at h
        have hparts := List.append_inj' h (by simp)
        have hdiv : a / 10 = b / 10 :=
          ih (a / 10) (Nat.div_lt_self (by omega) (by omega)) (b / 10) hparts.1
        have hmodc : Nat.digitChar (a % 10) = Nat.digitChar (b % 10) := by
          have := hparts.2
          injection this
        have hmod : a % 10 = b % 10 := by
          have := digitChar_inj10 ⟨a % 10, Nat.mod_lt _ (by omega)⟩
            ⟨b % 10, Nat.mod_lt _ (by omega)⟩ hmodc
          exact congrArg Fin.val this
        omega

theorem natToStr_inj {n m : Nat} (h : natToStr n = natToStr m) : n = m :=
  decDigits_inj n m (by rw [← natToStr_data, ← natToStr_data, h])

theorem candName_inj (base ext : String) {n m : Nat}
    (h : candName base ext n = candName base ext m) : n = m := by
  have hd := congrArg String.data h
  simp only [candName, String.data_append] at hd
  have h1 := List.append_cancel_right hd
  have h2 := List.append_cancel_left h1
  exact natToStr_inj (String.ext h2)

theorem exists_free_cand (names : List String) (base ext : String) (start : Nat) :
    ∃ n, start ≤ n ∧ n ≤ start + names.length ∧ candName base ext n ∉ names := by
  by_contra h
  push_neg at h
  have hmaps : ∀ x ∈ Finset.Icc start (start + names.length),
      candName base ext x ∈ names.toFinset := by
    intro x hx
    rw [Finset.mem_Icc] at hx
    rw [List.mem_toFinset]
    exact h x hx.1 hx.2
  have hinj : Set.InjOn (candName base ext) (Finset.Icc start (start + names.length)) :=
    fun x _ y _ hxy => candName_inj base ext hxy
  have hcard := Finset.card_le_card_of_injOn _ hmaps hinj
  rw [Nat.card_Icc] at hcard
  have hle := names.toFinset_card_le
  omega

theorem freshFrom_least (names : List String) (base ext : String) :
    ∀ (fuel start : Nat),
      (∃ n, start ≤ n ∧ n < start + fuel ∧ candName base ext n ∉ names) →
      ∃ N, start ≤ N ∧ freshFrom names base ext start fuel = candName base ext N
        ∧ candName base ext N ∉ names
        ∧ ∀ m, start ≤ m → m < N → candName base ext m ∈ names := by
  intro fuel
  induction fuel with
  | zero =>
    intro start h
    obtain ⟨n, h1, h2, _⟩ := h
    omega
  | succ k ih =>
    intro start h
    obtain ⟨n, h1, h2, h3⟩ := h
    unfold freshFrom
    by_cases hc : candName base ext start ∈ names
    · rw [if_pos hc]
      have hne : n ≠ start := by
        intro he
        rw [he] at h3
        exact h3 hc
      obtain ⟨N, hN1, hN2, hN3, hN4⟩ := ih (start + 1) ⟨n, by omega, by omega, h3⟩
      refine ⟨N, by omega, hN2, hN3, ?_⟩
      intro m hm1 hm2
      by_cases hms : m = start
      · rw [hms]; exact hc
      · exact hN4 m (by omega) hm2
    · rw [if_neg hc]
      refine ⟨start, Nat.le_refl _, rfl, hc, ?_⟩
      intro m hm1 hm2
      exact absurd (Nat.lt_of_le_of_lt hm1 hm2) (Nat.lt_irrefl start)

theorem saveName_collision (names : List String) (safe : String) (hmem : safe ∈ names) :
    ∃ N, 1 ≤ N
      ∧ saveName names safe = candName (splitext safe).1 (splitext safe).2 N
      ∧ candName (splitext safe).1 (splitext safe).2 N ∉ names
      ∧ ∀ m, 1 ≤ m → m < N → candName (splitext safe).1 (splitext safe).2 m ∈ names := by
  unfold saveName
  rw [if_pos hmem]
  obtain ⟨n, h1, h2, h3⟩ := exists_free_cand names (splitext safe).1 (splitext safe).2 1
  exact freshFrom_least names (splitext safe).1 (splitext safe).2 (names.length + 1) 1
    ⟨n, h1, by omega, h3⟩

theorem lookupFile_append_new (disk : List (String × String)) (name content q : String)
    (hq : q ∈ disk.map Prod.fst) :
    lookupFile (disk ++ [(name, content)]) q = lookupFile disk q := by
  unfold lookupFile
  rw [List.find?_append]
  have hsome : (disk.find? (fun p => p.1 = q)).isSome := by
    rw [List.find?_isSome]
    obtain ⟨pair, hpair, heq⟩ := List.mem_map.mp hq
    exact ⟨pair, hpair, by simp [heq]⟩
  cases hfind : disk.find? (fun p => p.1 = q) with
  | none => rw [hfind] at hsome; simp at hsome
  | some pair => simp

/-- C8: saving a generated file whose re-sanitized name collides with an
    existing file writes the content under base_N.ext where N is the
    smallest positive counter making the name fresh; the pre-existing
    files and their contents are unchanged (the new entry is appended
    under a name not previously present, and every old lookup is
    unaffected). -/
theorem c8_collision_suffix (disk : List (String × String)) (filename content : String)
    (hcol : sanitizeSave filename ∈ disk.map Prod.fst) :
    ∃ N, 1 ≤ N
      ∧ (saveFileFS filename content disk).2
        = candName (splitext (sanitizeSave filename)).1 (splitext (sanitizeSave filename)).2 N
      ∧ (saveFileFS filename content disk).2 ∉ disk.map Prod.fst
      ∧ (∀ m, 1 ≤ m → m < N →
          candName (splitext (sanitizeSave filename)).1 (splitext (sanitizeSave filename)).2 m
            ∈ disk.map Prod.fst)
      ∧ (saveFileFS filename content disk).1
        = disk ++ [((saveFileFS filename content disk).2, content)]
      ∧ (∀ q, q ∈ disk.map Prod.fst →
          lookupFile (saveFileFS filename content disk).1 q = lookupFile disk q) := by
  obtain ⟨N, h1, h2, h3, h4⟩ := saveName_collision (disk.map Prod.fst)
    (sanitizeSave filename) hcol
  have hname : (saveFileFS filename content disk).2
      = saveName (disk.map Prod.fst) (sanitizeSave filename) := rfl
  refine ⟨N, h1, by rw [hname, h2], by rw [hname, h2]; exact h3, h4, rfl, ?_⟩
  intro q hq
  exact lookupFile_append_new disk _ content q hq

/-- C8 witness: saving foo.txt when foo.txt and foo_1.txt already exist
    writes foo_2.txt and leaves the old entries untouched. -/
theorem c8_witness :
    (sanitizeSave "foo.txt" ∈ ([("foo.txt", "old"), ("foo_1.txt", "x")].map Prod.fst))
    ∧ (saveFileFS "foo.txt" "new" [("foo.txt", "old"), ("foo_1.txt", "x")]).2 = "foo_2.txt"
    ∧ (saveFileFS "foo.txt" "new" [("foo.txt", "old"), ("foo_1.txt", "x")]).1
      = [("foo.txt", "old"), ("foo_1.txt", "x"), ("foo_2.txt", "new")]
    ∧ (∃ N, 1 ≤ N
        ∧ (saveFileFS "foo.txt" "new" [("foo.txt", "old"), ("foo_1.txt", "x")]).2
          = candName (splitext (sanitizeSave "foo.txt")).1
              (splitext (sanitizeSave "foo.txt")).2 N
        ∧ (saveFileFS "foo.txt" "new" [("foo.txt", "old"), ("foo_1.txt", "x")]).2
          ∉ ([("foo.txt", "old"), ("foo_1.txt", "x")].map Prod.fst)
        ∧ (∀ m, 1 ≤ m → m < N →
            candName (splitext (sanitizeSave "foo.txt")).1
                (splitext (sanitizeSave "foo.txt")).2 m
              ∈ ([("foo.txt", "old"), ("foo_1.txt", "x")].map Prod.fst))) := by
  have h := c8_collision_suffix [("foo.txt", "old"), ("foo_1.txt", "x")] "foo.txt" "new"
    (by decide)
  exact ⟨by decide, by decide, by decide, h.choose, h.choose_spec.1, h.choose_spec.2.1,
    h.choose_spec.2.2.1, h.choose_spec.2.2.2.1⟩

end GemNet
